import Mathlib

/-!
Verification of the core playback engine of KeepAudio (src/keepaudio.c).

The development shallowly embeds the relevant C functions:
- the format-decision portion of open_audio (lines 698-764),
- the sine fill routines fill_sine_i16 / fill_sine_f32 (lines 387-420),
- the amplitude computation shared by AudioThreadProc and open_audio
  (lines 425, 443-448, 776, 794-799),
- the drain loop of close_audio (lines 813-836),
- the refill scan of AudioThreadProc (lines 430-461),
- the writes to the global run flag g_running,
- the command-line handling of parse_options (lines 482-624).

C doubles are modelled as exact rationals or reals; where NaN/infinity
behaviour of a double matters (the clamps in parse_options) a dedicated
type CDouble with IEEE comparison semantics is used.  The C library sin
is modelled by Real.sin, and the cast of a float expression to a C float
is modelled as the identity on reals.
-/

/-- The requested-format enum of the source (AudioFormat, lines 50-55). -/
inductive AudioFormat
  | FMT_AUTO
  | FMT_PCM16
  | FMT_FLOAT32
  deriving DecidableEq, Repr

/-- The device as seen by open_audio: whether a waveOutOpen call with an
IEEE-float format, resp. a PCM format, returns MMSYSERR_NOERROR.  (The
sample rate and channel count of the attempts are fixed by the options,
so acceptance is a function of the format tag alone for one session.) -/
structure Device where
  acceptFloat : Bool
  acceptPcm : Bool
  deriving DecidableEq, Repr

/-- Format-decision portion of open_audio (lines 698-764): which concrete
encoding the session ends up with, as a function of the requested format,
the (already clamped) level in dBFS and the device.  Returns
some usingFloat on success (the value the code stores in g_usingFloat),
none when open_audio returns FALSE from this portion.

Branch structure mirrors the source: useFmt is FMT_AUTO resolved by the
-96 dBFS threshold (line 703); the FMT_FLOAT32 branch falls back to PCM16
unconditionally on rejection (lines 729-740); the PCM branch retries with
float only when the original request was FMT_AUTO (line 751). -/
def open_audio_fmt (reqFmt : AudioFormat) (db : ℚ) (dev : Device) : Option Bool :=
  let useFmt := if reqFmt = AudioFormat.FMT_AUTO then
      (if db ≤ -96 then AudioFormat.FMT_FLOAT32 else AudioFormat.FMT_PCM16)
    else reqFmt
  if useFmt = AudioFormat.FMT_FLOAT32 then
    if dev.acceptFloat then some true
    else if dev.acceptPcm then some false
    else none
  else
    if dev.acceptPcm then some false
    else if reqFmt = AudioFormat.FMT_AUTO && dev.acceptFloat then some true
    else none

/-- The per-buffer wait loop of close_audio (line 820-822):
int spins = 0; while (!(done) && spins++ < 200) Sleep(5);
done is the WHDR_DONE flag of the buffer as a function of how many sleeps
have elapsed; the result is the number of sleeps performed. -/
def drainWaitAux (done : ℕ → Bool) : ℕ → ℕ → ℕ
  | t, 0 => t
  | t, fuel + 1 => if done t then t else drainWaitAux done (t + 1) fuel

/-- Number of 5 ms sleeps close_audio performs for one buffer. -/
def drainWait (done : ℕ → Bool) : ℕ :=
  drainWaitAux done 0 200

/-- The drain loop of close_audio over a list of buffer indices
(lines 818-826): for each buffer, run the bounded wait, then unprepare
and free it unconditionally.  Returns (total sleeps, released indices). -/
def close_audio_model (done : ℕ → ℕ → Bool) : List ℕ → ℕ × List ℕ
  | [] => (0, [])
  | i :: rest =>
    let s := drainWait (done i)
    let r := close_audio_model done rest
    (s + r.1, i :: r.2)

/-- One pass of the steady-state refill scan of AudioThreadProc
(lines 432-459) over a list of buffer indices.  done i is the WHDR_DONE
flag of buffer i at scan time; writeOk i is whether waveOutWrite of
buffer i returns MMSYSERR_NOERROR.  Returns the indices for which a
waveOutWrite was issued (in scan order) and the value of the run flag
after the pass (false exactly when a write failed, line 455); a failed
write breaks out of the scan (line 456). -/
def refillScan (done : ℕ → Bool) (writeOk : ℕ → Bool) : List ℕ → List ℕ × Bool
  | [] => ([], true)
  | i :: rest =>
    if done i then
      if writeOk i then
        let r := refillScan done writeOk rest
        (i :: r.1, r.2)
      else ([i], false)
    else refillScan done writeOk rest

/-- The events that touch the global run flag g_running.  threadIter is
one iteration of the AudioThreadProc loop (the flag test at line 430
followed by one scan pass; k buffers were submitted, fail records a
waveOutWrite failure, line 455); stopMsg is any of the writes of 0
(HiddenWndProc WM_ENDSESSION/WM_CLOSE/WM_QUIT at lines 471/475, the
WM_QUIT branch of the WinMain pump at line 949); otherMsg is any event
that does not write the flag (DefWindowProc, pump tick). -/
inductive AudioEvent
  | threadIter (k : ℕ) (fail : Bool)
  | stopMsg
  | otherMsg

/-- State: (g_running as a Bool, number of buffers enqueued so far).
No event ever writes 1 to the flag: the only accesses are
InterlockedCompareExchange(&g_running, 1, 1) (a pure read) and
InterlockedExchange(&g_running, 0). -/
def runStep (s : Bool × ℕ) : AudioEvent → Bool × ℕ
  | AudioEvent.threadIter k fail =>
      if s.1 then (if fail then false else true, s.2 + k) else s
  | AudioEvent.stopMsg => (false, s.2)
  | AudioEvent.otherMsg => s

/-- The run-flag/enqueue state after a sequence of events. -/
def runTrace (s : Bool × ℕ) (evts : List AudioEvent) : Bool × ℕ :=
  List.foldl runStep s evts

/-- Truncation toward zero: the semantics of the C cast (int16_t) applied
to an in-range double (fill_sine_i16, line 391). -/
noncomputable def c_trunc (x : ℝ) : ℤ :=
  if 0 ≤ x then ⌊x⌋ else ⌈x⌉

/-- Phase advance of one frame (lines 392-394 and 409-411): add the step,
then subtract 2 pi once when the result reaches or exceeds 2 pi. -/
noncomputable def wrapStep (phase step : ℝ) : ℝ :=
  if phase + step ≥ 2 * Real.pi then phase + step - 2 * Real.pi else phase + step

/-- The phase accumulator after n frames. -/
noncomputable def phaseAt (phase step : ℝ) (n : ℕ) : ℝ :=
  (fun q => wrapStep q step)^[n] phase

/-- fill_sine_i16 (lines 387-403): the interleaved int16 samples written
to the buffer, and the final value of the phase accumulator.  The C
sample is (int16_t)(sin(*phase) * amp): truncation toward zero of the
double product.  A mono sample occupies one slot, otherwise it is
duplicated into both channel slots of the frame. -/
noncomputable def fill_sine_i16 (frames channels : ℕ) (phase step : ℝ)
    (amp : ℤ) : List ℤ × ℝ :=
  match frames with
  | 0 => ([], phase)
  | n + 1 =>
    let s := c_trunc (Real.sin phase * (amp : ℝ))
    let r := fill_sine_i16 n channels (wrapStep phase step) step amp
    ((if channels = 1 then [s] else [s, s]) ++ r.1, r.2)

/-- fill_sine_f32 (lines 404-420): float samples, same phase logic; the
cast of the double expression sin(*phase) * amp to a C float is modelled
as the identity on reals. -/
noncomputable def fill_sine_f32 (frames channels : ℕ) (phase step : ℝ)
    (amp : ℝ) : List ℝ × ℝ :=
  match frames with
  | 0 => ([], phase)
  | n + 1 =>
    let s := Real.sin phase * amp
    let r := fill_sine_f32 n channels (wrapStep phase step) step amp
    ((if channels = 1 then [s] else [s, s]) ++ r.1, r.2)

/-- End phase of one buffer fill in either sample domain (both fill
routines advance the shared accumulator identically). -/
noncomputable def bufEndPhase (usingFloat : Bool) (frames channels : ℕ)
    (phase step : ℝ) (ampI : ℤ) (ampF : ℝ) : ℝ :=
  if usingFloat then (fill_sine_f32 frames channels phase step ampF).2
  else (fill_sine_i16 frames channels phase step ampI).2

/-- The (start phase, end phase) pairs of a sequence of buffer fills all
threading the single accumulator g_phase: the priming fills of
open_audio (lines 778-801) followed by any sequence of refills in
AudioThreadProc (lines 432-459).  fills lists the frame count of each
generated buffer in generation order; the accumulator is never reset
between fills. -/
noncomputable def sessionTrace (usingFloat : Bool) (channels : ℕ)
    (step : ℝ) (ampI : ℤ) (ampF : ℝ) : ℝ → List ℕ → List (ℝ × ℝ)
  | _, [] => []
  | p, f :: rest =>
    let e := bufEndPhase usingFloat f channels p step ampI ampF
    (p, e) :: sessionTrace usingFloat channels step ampI ampF e rest

/-- linear = pow(10.0, db / 20.0) (lines 425 and 776). -/
noncomputable def toLinear (db : ℝ) : ℝ :=
  (10 : ℝ) ^ (db / 20)

/-- The int16 amplitude computed identically in AudioThreadProc (lines
443-448) and open_audio (lines 794-799): scale the linear level to the
int16 full scale, clamp into [1, 32767], then (int16_t)floor(scaled+0.5);
the cast is exact because the argument lies in [1, 32767]. -/
noncomputable def amplitudeI16 (db : ℝ) : ℤ :=
  ⌊(if toLinear db * 32767 < 1 then 1
    else if toLinear db * 32767 > 32767 then 32767
    else toLinear db * 32767) + 1 / 2⌋

/-- The float32 amplitude (lines 438 and 789): the unclamped linear
value (float cast modelled as identity). -/
noncomputable def amplitudeF32 (db : ℝ) : ℝ :=
  toLinear db

/-- The integer amplitude exactly as claim C5 words it:
clamp(linear * 32767, 1, 32767), with no rounding.  Stated for
comparison with amplitudeI16, which follows the source. -/
noncomputable def claimAmplitudeI16 (db : ℝ) : ℝ :=
  max 1 (min (toLinear db * 32767) 32767)

/-- A C double as observed through comparisons: a finite value, NaN, or
a signed infinity.  Finite values are exact rationals (the rounding of
decimal text to a binary double is not modelled); what matters for the
clamps of parse_options is the IEEE comparison semantics, under which
every comparison involving NaN is false. -/
inductive CDouble
  | fin (q : ℚ)
  | nan
  | pinf
  | ninf
  deriving DecidableEq, Repr

/-- IEEE less-than on C doubles: false whenever either side is NaN. -/
def cdLt : CDouble → CDouble → Bool
  | CDouble.nan, _ => false
  | _, CDouble.nan => false
  | CDouble.fin a, CDouble.fin b => decide (a < b)
  | CDouble.fin _, CDouble.pinf => true
  | CDouble.fin _, CDouble.ninf => false
  | CDouble.pinf, _ => false
  | CDouble.ninf, CDouble.ninf => false
  | CDouble.ninf, _ => true

/-- clamp_double (lines 109-116): v < lo gives lo, v > hi gives hi,
otherwise v; with IEEE comparisons a NaN fails both tests and is
returned unchanged. -/
def clamp_double (v lo hi : CDouble) : CDouble :=
  if cdLt v lo then lo else if cdLt hi v then hi else v

/-- clamp_int (lines 117-124). -/
def clamp_int (v lo hi : ℤ) : ℤ :=
  if v < lo then lo else if hi < v then hi else v

/-- Whether a C double is a finite value within [lo, hi]. -/
def cdInRange (v : CDouble) (lo hi : ℚ) : Bool :=
  match v with
  | CDouble.fin q => decide (lo ≤ q) && decide (q ≤ hi)
  | _ => false

/-- The whitespace characters skipped by strtol/strtod (C isspace). -/
def isSpaceC (c : Char) : Bool :=
  c = ' ' || c = '\t' || c = '\n' || c = '\r' || c = '\x0b' || c = '\x0c'

/-- Skip leading whitespace, as strtol/strtod do. -/
def skipWS : List Char → List Char
  | [] => []
  | c :: cs => if isSpaceC c then skipWS cs else c :: cs

/-- Optional leading sign: (negative, rest). -/
def readSign : List Char → Bool × List Char
  | '-' :: cs => (true, cs)
  | '+' :: cs => (false, cs)
  | cs => (false, cs)

/-- Value of a decimal digit character. -/
def digitVal (c : Char) : ℕ :=
  c.toNat - 48

/-- Read a maximal run of decimal digits: accumulated value, number of
digits read, rest. -/
def readDigits : List Char → ℕ → ℕ → ℕ × ℕ × List Char
  | [], acc, k => (acc, k, [])
  | c :: cs, acc, k =>
    if c.isDigit then readDigits cs (10 * acc + digitVal c) (k + 1)
    else (acc, k, c :: cs)

/-- strtol(s, &end, 10) followed by the acceptance check of parse_int
(lines 125-134): end != s and *end == 0, i.e. optional whitespace and
sign, at least one digit, nothing after the digits.  The long value is
clamped to the 32-bit long range of the target (strtol yields
LONG_MAX/LONG_MIN on overflow); the subsequent (int) cast is then the
identity. -/
def strtol10 (s : String) : Option ℤ :=
  let sn := readSign (skipWS s.toList)
  let r := readDigits sn.2 0 0
  if r.2.1 = 0 then none
  else if r.2.2 ≠ [] then none
  else
    let v : ℤ := if sn.1 then -(r.1 : ℤ) else (r.1 : ℤ)
    some (if v < -(2 ^ 31) then -(2 ^ 31) else if 2 ^ 31 - 1 < v then 2 ^ 31 - 1 else v)

/-- parse_int (lines 125-134): missing or unconvertible text keeps the
default. -/
def parse_int (s : Option String) (defv : ℤ) : ℤ :=
  match s with
  | none => defv
  | some str =>
    match strtol10 str with
    | none => defv
    | some v => v

/-- ASCII lowercase of a character (for the case-insensitive compares
of _stricmp and strtod keywords). -/
def lowC (c : Char) : Char :=
  if 'A' ≤ c && c ≤ 'Z' then Char.ofNat (c.toNat + 32) else c

/-- Consume the given lowercase pattern case-insensitively; some rest on
a match. -/
def matchCI : List Char → List Char → Option (List Char)
  | [], cs => some cs
  | _ :: _, [] => none
  | p :: ps, c :: cs => if lowC c = p then matchCI ps cs else none

/-- Decimal mantissa of strtod: digits [. digits] or . digits; returns
(all digits as one natural number, number of fractional digits, rest),
or none when no digit is present. -/
def readMantissa (cs : List Char) : Option (ℕ × ℕ × List Char) :=
  let ri := readDigits cs 0 0
  match ri.2.2 with
  | '.' :: cs2 =>
    let rf := readDigits cs2 ri.1 0
    if ri.2.1 = 0 ∧ rf.2.1 = 0 then none
    else some (rf.1, rf.2.1, rf.2.2)
  | rest =>
    if ri.2.1 = 0 then none else some (ri.1, 0, rest)

/-- Optional exponent part of strtod; a present but malformed exponent
is not consumed (strtod backs end up to before the e). -/
def readExp (cs : List Char) : ℤ × List Char :=
  match cs with
  | [] => (0, [])
  | c :: cs1 =>
    if lowC c = 'e' then
      let sn := readSign cs1
      let rd := readDigits sn.2 0 0
      if rd.2.1 = 0 then (0, cs)
      else ((if sn.1 then -(rd.1 : ℤ) else (rd.1 : ℤ)), rd.2.2)
    else (0, cs)

/-- strtod followed by the acceptance check of parse_double (lines
135-144): optional whitespace and sign, then a decimal/exponent form or
inf/infinity/nan (case-insensitive), consuming the whole string.
Hexadecimal float literals and nan(...) payloads are not modelled.
Out-of-range magnitudes, which strtod maps to HUGE_VAL, are kept as
exact rationals; both behave identically under the later clamps. -/
def strtodModel (s : String) : Option CDouble :=
  let sn := readSign (skipWS s.toList)
  match matchCI ['i', 'n', 'f', 'i', 'n', 'i', 't', 'y'] sn.2 with
  | some rest =>
    if rest = [] then some (if sn.1 then CDouble.ninf else CDouble.pinf) else none
  | none =>
  match matchCI ['i', 'n', 'f'] sn.2 with
  | some rest =>
    if rest = [] then some (if sn.1 then CDouble.ninf else CDouble.pinf) else none
  | none =>
  match matchCI ['n', 'a', 'n'] sn.2 with
  | some rest => if rest = [] then some CDouble.nan else none
  | none =>
  match readMantissa sn.2 with
  | none => none
  | some m =>
    let e := readExp m.2.2
    if e.2 ≠ [] then none
    else
      let mag : ℚ := (m.1 : ℚ) / 10 ^ m.2.1 * 10 ^ e.1
      some (CDouble.fin (if sn.1 then -mag else mag))

/-- parse_double (lines 135-144): missing or unconvertible text keeps
the default. -/
def parse_double (s : Option String) (defv : CDouble) : CDouble :=
  match s with
  | none => defv
  | some str =>
    match strtodModel str with
    | none => defv
    | some v => v

/-- _stricmp equality (ASCII case-insensitive), line 151-154. -/
def str_eq_ci (a b : String) : Bool :=
  decide (a.toList.map lowC = b.toList.map lowC)

/-- The Options record filled by parse_options (lines 57-74), with the
listOnly out-parameter folded in. -/
structure Options where
  freq : CDouble
  db : CDouble
  rate : ℤ
  deviceIndex : ℤ
  channels : ℤ
  bufferFrames : ℤ
  numBuffers : ℤ
  chance : ℤ
  reqFmt : AudioFormat
  doInstall : Bool
  doInstallCopy : Bool
  doUninstall : Bool
  startupName : String
  wantConsole : Bool
  listOnly : Bool
  deriving Repr

/-- The defaults set at the top of parse_options (lines 484-499). -/
def defaultOptions : Options :=
  { freq := CDouble.fin 1, db := CDouble.fin (-100), rate := 48000,
    deviceIndex := -1, channels := 1, bufferFrames := 1024, numBuffers := 8,
    chance := 0, reqFmt := AudioFormat.FMT_AUTO, doInstall := false,
    doInstallCopy := false, doUninstall := false, startupName := "KeepAudio",
    wantConsole := false, listOnly := false }

/-- One iteration of the scanning loop of parse_options (lines 501-611):
dispatch on the current argument a, with v the following argument (the
operand position).  Returns the updated options and whether the branch
performed the extra ++i that consumes the operand; value-taking flags
consume it unconditionally whether or not it converted, and unmatched
arguments are ignored. -/
def parseStep (o : Options) (a : String) (v : Option String) : Options × Bool :=
  if str_eq_ci a "--console" then ({ o with wantConsole := true }, false)
  else if str_eq_ci a "--list-devices" then ({ o with listOnly := true }, false)
  else if str_eq_ci a "--help" || str_eq_ci a "-h" || str_eq_ci a "/?" then
    ({ o with listOnly := true }, false)
  else if str_eq_ci a "--install" then ({ o with doInstall := true }, false)
  else if str_eq_ci a "--install-copy" then ({ o with doInstallCopy := true }, false)
  else if str_eq_ci a "--uninstall" then ({ o with doUninstall := true }, false)
  else if str_eq_ci a "--startup-name" then
    ({ o with startupName := v.getD o.startupName }, true)
  else if str_eq_ci a "--freq" then ({ o with freq := parse_double v o.freq }, true)
  else if str_eq_ci a "--db" then ({ o with db := parse_double v o.db }, true)
  else if str_eq_ci a "--rate" then ({ o with rate := parse_int v o.rate }, true)
  else if str_eq_ci a "--device" then
    ({ o with deviceIndex := parse_int v o.deviceIndex }, true)
  else if str_eq_ci a "--channels" then
    ({ o with channels := parse_int v o.channels }, true)
  else if str_eq_ci a "--frames" then
    ({ o with bufferFrames := parse_int v o.bufferFrames }, true)
  else if str_eq_ci a "--buffers" then
    ({ o with numBuffers := parse_int v o.numBuffers }, true)
  else if str_eq_ci a "--chance" then ({ o with chance := parse_int v o.chance }, true)
  else if str_eq_ci a "--format" then
    (match v with
     | some w =>
       if str_eq_ci w "auto" then { o with reqFmt := AudioFormat.FMT_AUTO }
       else if str_eq_ci w "pcm16" then { o with reqFmt := AudioFormat.FMT_PCM16 }
       else if str_eq_ci w "float32" then { o with reqFmt := AudioFormat.FMT_FLOAT32 }
       else o
     | none => o, true)
  else (o, false)

/-- The scanning loop of parse_options over argv[1..]: run parseStep on
each argument, skipping the operand of a consuming branch (the final
arm covers i+1 = argc, where the extra ++i just ends the loop). -/
def parseArgs : Options → List String → Options
  | o, [] => o
  | o, [a] => (parseStep o a none).1
  | o, a :: b :: rest =>
    let r := parseStep o a (some b)
    if r.2 then parseArgs r.1 rest else parseArgs r.1 (b :: rest)

/-- The clamp block at the end of parse_options (lines 612-623). -/
def clampOptions (o : Options) : Options :=
  { o with
    freq := clamp_double o.freq (CDouble.fin (1 / 10)) (CDouble.fin 2000),
    db := clamp_double o.db (CDouble.fin (-150)) (CDouble.fin (-10)),
    rate := if o.rate < 8000 then 8000 else if 192000 < o.rate then 192000 else o.rate,
    channels := if o.channels ≠ 1 ∧ o.channels ≠ 2 then 1 else o.channels,
    bufferFrames := clamp_int o.bufferFrames 128 8192,
    numBuffers := clamp_int o.numBuffers 2 32,
    chance := if o.chance ≠ 0 then clamp_int o.chance 1 100 else o.chance }

/-- parse_options (lines 482-624): defaults, the scanning loop, then
the clamp block. -/
def parse_options (args : List String) : Options :=
  clampOptions (parseArgs defaultOptions args)

-- Helper lemmas

theorem drainWaitAux_le (done : ℕ → Bool) (t fuel : ℕ) :
    drainWaitAux done t fuel ≤ t + fuel := by
  induction fuel generalizing t with
  | zero => simp [drainWaitAux]
  | succ n ih =>
    simp only [drainWaitAux]
    split
    · omega
    · have := ih (t + 1)
      omega

theorem drainWait_le (done : ℕ → Bool) : drainWait done ≤ 200 := by
  simpa using drainWaitAux_le done 0 200

theorem close_audio_model_spec (done : ℕ → ℕ → Bool) (l : List ℕ) :
    (close_audio_model done l).1 ≤ 200 * l.length ∧
      (close_audio_model done l).2 = l := by
  induction l with
  | nil => simp [close_audio_model]
  | cons i rest ih =>
    have h := drainWait_le (done i)
    simp only [close_audio_model, List.length_cons]
    constructor
    · have := ih.1
      omega
    · simp [ih.2]

theorem refillScan_all_ok (done writeOk : ℕ → Bool) (l : List ℕ)
    (h : ∀ j ∈ l, done j = true → writeOk j = true) :
    refillScan done writeOk l = (l.filter (fun j => done j), true) := by
  induction l with
  | nil => simp [refillScan]
  | cons a rest ih =>
    have ha := h a (by simp)
    have hrest : ∀ j ∈ rest, done j = true → writeOk j = true := by
      intro j hj; exact h j (by simp [hj])
    by_cases hd : done a = true
    · simp [refillScan, hd, ha hd, ih hrest, List.filter_cons]
    · have hd2 : done a = false := by
        cases hda : done a
        · rfl
        · exact absurd hda hd
      simp [refillScan, hd2, ih hrest, List.filter_cons]

theorem refillScan_first_fail (done writeOk : ℕ → Bool) (i : ℕ)
    (l₁ l₂ : List ℕ)
    (hok : ∀ j ∈ l₁, done j = true → writeOk j = true)
    (hdone : done i = true) (hfail : writeOk i = false) :
    refillScan done writeOk (l₁ ++ i :: l₂) =
      ((l₁ ++ [i]).filter (fun j => done j), false) := by
  induction l₁ with
  | nil => simp [refillScan, hdone, hfail]
  | cons a rest ih =>
    have ha := hok a (by simp)
    have hrest : ∀ j ∈ rest, done j = true → writeOk j = true := by
      intro j hj; exact hok j (by simp [hj])
    by_cases hd : done a = true
    · simp [refillScan, hd, ha hd, ih hrest, List.filter_cons]
    · have hd2 : done a = false := by
        cases hda : done a
        · rfl
        · exact absurd hda hd
      simp [refillScan, hd2, ih hrest, List.filter_cons]

theorem runTrace_stopped (evts : List AudioEvent) (s : Bool × ℕ)
    (h : s.1 = false) : runTrace s evts = s := by
  induction evts generalizing s with
  | nil => rfl
  | cons e rest ih =>
    have hstep : runStep s e = s := by
      cases e with
      | threadIter k fail => simp [runStep, h]
      | stopMsg =>
        cases s with
        | mk r m => simp only at h; simp [runStep, h]
      | otherMsg => rfl
    simp only [runTrace, List.foldl_cons, hstep]
    exact ih s h

-- Claim theorems

/-- C4 (confirmed): with format auto, open_audio first tries float32 when
the level is at or below -96 dBFS and PCM16 otherwise, and on rejection
of that first candidate tries the other encoding before failing; in
particular an auto request at level -100 against a device that rejects
float but accepts PCM succeeds with the integer encoding. -/
theorem auto_format_policy (db : ℚ) (dev : Device) :
    open_audio_fmt AudioFormat.FMT_AUTO db dev =
      (if db ≤ -96 then
        (if dev.acceptFloat then some true
         else if dev.acceptPcm then some false else none)
      else
        (if dev.acceptPcm then some false
         else if dev.acceptFloat then some true else none)) ∧
    open_audio_fmt AudioFormat.FMT_AUTO (-100) ⟨false, true⟩ = some false := by
  refine ⟨?_, by decide⟩
  by_cases h : db ≤ -96 <;>
    cases hf : dev.acceptFloat <;> cases hp : dev.acceptPcm <;>
      simp [open_audio_fmt, h, hf, hp]

/-- C1 counterexample: an explicit (non-auto) float32 request against a
device that rejects float but accepts PCM does NOT fail: open_audio
silently substitutes PCM16 (the fallback at lines 729-740 is taken even
though reqFmt is not FMT_AUTO), ending with g_usingFloat = FALSE. -/
theorem explicit_float_fallback_counterexample :
    open_audio_fmt AudioFormat.FMT_FLOAT32 (-100) ⟨false, true⟩ = some false := by
  decide

/-- C1 (corrected): an explicit PCM16 request is strict (a device that
rejects PCM16 makes open_audio fail without trying float32), but an
explicit float32 request that the device rejects falls back to PCM16,
succeeding with the integer encoding whenever the device accepts it. -/
theorem explicit_format_policy (db : ℚ) (dev : Device) :
    (dev.acceptPcm = false →
      open_audio_fmt AudioFormat.FMT_PCM16 db dev = none) ∧
    (dev.acceptFloat = false →
      open_audio_fmt AudioFormat.FMT_FLOAT32 db dev =
        (if dev.acceptPcm then some false else none)) := by
  constructor
  · intro hp
    simp [open_audio_fmt, hp]
  · intro hf
    cases hp : dev.acceptPcm <;> simp [open_audio_fmt, hf, hp]

/-- Witness for explicit_format_policy at db = -100 and a device that
rejects both encodings. -/
theorem explicit_format_policy_witness :
    open_audio_fmt AudioFormat.FMT_PCM16 (-100) ⟨true, false⟩ = none ∧
    open_audio_fmt AudioFormat.FMT_FLOAT32 (-100) ⟨false, false⟩ = none := by
  refine ⟨(explicit_format_policy (-100) ⟨true, false⟩).1 rfl, ?_⟩
  have h := (explicit_format_policy (-100) ⟨false, false⟩).2 rfl
  simpa using h

/-- C7 (confirmed): close_audio always terminates within the per-buffer
budget: over the n buffers it performs at most 200 sleeps per buffer
(at most 200 * n in total) no matter how the completion flags behave,
and every buffer is unprepared and freed regardless of its flag. -/
theorem close_audio_bounded_drain (n : ℕ) (done : ℕ → ℕ → Bool) :
    (close_audio_model done (List.range n)).1 ≤ 200 * n ∧
      (close_audio_model done (List.range n)).2 = List.range n := by
  have h := close_audio_model_spec done (List.range n)
  simpa using h

/-- C8 (confirmed): during a refill pass, if the first completed buffer
whose resubmission fails is index i, then the run flag ends stopped and
the pass issued writes exactly for the completed buffers with index at
most i: no per-buffer retry and no submissions for any buffer after i. -/
theorem refill_fail_fast (done writeOk : ℕ → Bool) (n i : ℕ)
    (hin : i < n) (hdone : done i = true) (hfail : writeOk i = false)
    (hok : ∀ j, j < i → done j = true → writeOk j = true) :
    refillScan done writeOk (List.range n) =
      ((List.range (i + 1)).filter (fun j => done j), false) := by
  have hm : n = (i + 1) + (n - (i + 1)) := by omega
  have hsplit : List.range n =
      List.range i ++ i :: (List.range (n - (i + 1))).map (fun j => (i + 1) + j) := by
    conv_lhs => rw [hm]
    rw [List.range_add, List.range_succ]
    simp [List.append_assoc]
  rw [hsplit]
  have hok2 : ∀ j ∈ List.range i, done j = true → writeOk j = true := by
    intro j hj
    exact hok j (List.mem_range.mp hj)
  rw [refillScan_first_fail done writeOk i _ _ hok2 hdone hfail]
  have : List.range i ++ [i] = List.range (i + 1) := (List.range_succ i).symm
  rw [this]

/-- Witness for refill_fail_fast: four buffers all completed, the write
for buffer 1 fails: buffers 0 and 1 were submitted, the flag is stopped,
buffers 2 and 3 were not touched. -/
theorem refill_fail_fast_witness :
    refillScan (fun _ => true) (fun j => decide ¬ (j = 1)) (List.range 4) =
      ((List.range 2).filter (fun _ => true), false) := by
  exact refill_fail_fast (fun _ => true) (fun j => decide ¬ (j = 1)) 4 1
    (by decide) rfl (by decide) (by decide)

/-- C9 (confirmed): the run flag only transitions running to stopped and
never back: whenever the flag is true after a sequence of events it was
true before it, and once the flag is false the whole state is unchanged
by any further events; in particular no further buffers are enqueued. -/
theorem run_flag_monotone (evts : List AudioEvent) (s : Bool × ℕ) :
    ((runTrace s evts).1 = true → s.1 = true) ∧
    (s.1 = false → runTrace s evts = s) := by
  constructor
  · intro h
    by_contra hs
    have hs2 : s.1 = false := by
      cases hv : s.1
      · rfl
      · exact absurd hv hs
    rw [runTrace_stopped evts s hs2] at h
    rw [hs2] at h
    exact Bool.false_ne_true h
  · intro h
    exact runTrace_stopped evts s h

/-- Witness for run_flag_monotone: once stopped with 5 buffers enqueued,
a thread iteration and a further stop message leave the state at
(stopped, 5). -/
theorem run_flag_monotone_witness :
    runTrace (false, 5) [AudioEvent.threadIter 3 false, AudioEvent.otherMsg]
      = (false, 5) := by
  exact (run_flag_monotone [AudioEvent.threadIter 3 false, AudioEvent.otherMsg]
    (false, 5)).2 rfl

-- Tone generator and amplitude lemmas

theorem phaseAt_succ_left (phase step : ℝ) (n : ℕ) :
    phaseAt phase step (n + 1) = phaseAt (wrapStep phase step) step n := by
  simp [phaseAt, Function.iterate_succ_apply]

theorem fill_sine_i16_snd (frames channels : ℕ) (phase step : ℝ) (amp : ℤ) :
    (fill_sine_i16 frames channels phase step amp).2 = phaseAt phase step frames := by
  induction frames generalizing phase with
  | zero => simp [fill_sine_i16, phaseAt]
  | succ n ih =>
    simp only [fill_sine_i16]
    rw [ih (wrapStep phase step), phaseAt_succ_left]

theorem fill_sine_f32_snd (frames channels : ℕ) (phase step : ℝ) (amp : ℝ) :
    (fill_sine_f32 frames channels phase step amp).2 = phaseAt phase step frames := by
  induction frames generalizing phase with
  | zero => simp [fill_sine_f32, phaseAt]
  | succ n ih =>
    simp only [fill_sine_f32]
    rw [ih (wrapStep phase step), phaseAt_succ_left]

theorem flatMap_map_succ {α : Type} (F : ℕ → List α) (l : List ℕ) :
    (l.map Nat.succ).flatMap F = l.flatMap (fun i => F (i + 1)) := by
  induction l with
  | nil => rfl
  | cons a t ih => simp [ih]

theorem flatMap_range_succ {α : Type} (F : ℕ → List α) (n : ℕ) :
    (List.range (n + 1)).flatMap F =
      F 0 ++ (List.range n).flatMap (fun i => F (i + 1)) := by
  rw [List.range_succ_eq_map]
  simp [flatMap_map_succ]

theorem fill_sine_i16_fst (frames channels : ℕ) (phase step : ℝ) (amp : ℤ) :
    (fill_sine_i16 frames channels phase step amp).1 =
      (List.range frames).flatMap (fun i =>
        if channels = 1 then
          [c_trunc (Real.sin (phaseAt phase step i) * (amp : ℝ))]
        else
          [c_trunc (Real.sin (phaseAt phase step i) * (amp : ℝ)),
           c_trunc (Real.sin (phaseAt phase step i) * (amp : ℝ))]) := by
  induction frames generalizing phase with
  | zero => simp [fill_sine_i16]
  | succ n ih =>
    simp only [fill_sine_i16]
    rw [ih (wrapStep phase step), flatMap_range_succ]
    have h0 : phaseAt phase step 0 = phase := rfl
    have hsucc : (fun i =>
        if channels = 1 then
          [c_trunc (Real.sin (phaseAt phase step (i + 1)) * (amp : ℝ))]
        else
          [c_trunc (Real.sin (phaseAt phase step (i + 1)) * (amp : ℝ)),
           c_trunc (Real.sin (phaseAt phase step (i + 1)) * (amp : ℝ))]) =
        (fun i =>
        if channels = 1 then
          [c_trunc (Real.sin (phaseAt (wrapStep phase step) step i) * (amp : ℝ))]
        else
          [c_trunc (Real.sin (phaseAt (wrapStep phase step) step i) * (amp : ℝ)),
           c_trunc (Real.sin (phaseAt (wrapStep phase step) step i) * (amp : ℝ))]) := by
      funext i
      rw [phaseAt_succ_left]
    rw [hsucc, h0]

theorem sessionTrace_fst_eq (usingFloat : Bool) (channels : ℕ) (step : ℝ)
    (ampI : ℤ) (ampF : ℝ) (fills : List ℕ) (p : ℝ) :
    (sessionTrace usingFloat channels step ampI ampF p fills).map Prod.fst =
      (p :: (sessionTrace usingFloat channels step ampI ampF p fills).map
        Prod.snd).dropLast := by
  induction fills generalizing p with
  | nil => simp [sessionTrace]
  | cons f rest ih =>
    simp only [sessionTrace, List.map_cons]
    rw [ih]
    cases h : (sessionTrace usingFloat channels step ampI ampF
        (bufEndPhase usingFloat f channels p step ampI ampF) rest).map Prod.snd with
    | nil => simp [h]
    | cons x xs => simp [h]

theorem tail_dropLast_cons {α : Type} (p : α) (M : List α) :
    ((p :: M).dropLast).tail = M.dropLast := by
  cases M <;> simp

-- Amplitude mapper lemmas

theorem amp_clamp_eq (x : ℝ) :
    (if x < 1 then (1 : ℝ) else if x > 32767 then 32767 else x) =
      max 1 (min x 32767) := by
  split_ifs with h1 h2
  · rw [min_eq_left (by linarith), max_eq_left (by linarith)]
  · rw [min_eq_right (by linarith), max_eq_right (by norm_num)]
  · rw [min_eq_left (by linarith), max_eq_right (by linarith)]

theorem amplitudeI16_eq (db : ℝ) :
    amplitudeI16 db = ⌊claimAmplitudeI16 db + 1 / 2⌋ := by
  unfold amplitudeI16 claimAmplitudeI16
  rw [amp_clamp_eq]

theorem claimAmplitudeI16_mem (db : ℝ) :
    1 ≤ claimAmplitudeI16 db ∧ claimAmplitudeI16 db ≤ 32767 :=
  ⟨le_max_left _ _, max_le (by norm_num) (min_le_right _ _)⟩

theorem amplitudeI16_bounds (db : ℝ) :
    1 ≤ amplitudeI16 db ∧ amplitudeI16 db ≤ 32767 := by
  obtain ⟨h1, h2⟩ := claimAmplitudeI16_mem db
  rw [amplitudeI16_eq]
  constructor
  · exact Int.le_floor.mpr (by push_cast; linarith)
  · have hlt : ⌊claimAmplitudeI16 db + 1 / 2⌋ < 32768 :=
      Int.floor_lt.mpr (by push_cast; linarith)
    omega

theorem toLinear_mono {a b : ℝ} (h : a ≤ b) : toLinear a ≤ toLinear b := by
  unfold toLinear
  exact (Real.rpow_le_rpow_left_iff (by norm_num)).mpr (by linarith)

theorem toLinear_strictMono {a b : ℝ} (h : a < b) : toLinear a < toLinear b := by
  unfold toLinear
  exact (Real.rpow_lt_rpow_left_iff (by norm_num)).mpr (by linarith)

theorem amplitudeI16_mono {a b : ℝ} (h : a ≤ b) :
    amplitudeI16 a ≤ amplitudeI16 b := by
  rw [amplitudeI16_eq, amplitudeI16_eq]
  apply Int.floor_le_floor
  have hl := toLinear_mono h
  unfold claimAmplitudeI16
  have hm : toLinear a * 32767 ≤ toLinear b * 32767 :=
    mul_le_mul_of_nonneg_right hl (by norm_num)
  gcongr

theorem toLinear_eval (n : ℕ) (db : ℝ) (h : db / 20 = -(n : ℝ)) :
    toLinear db = ((10 : ℝ) ^ n)⁻¹ := by
  unfold toLinear
  rw [h, Real.rpow_neg (by norm_num), Real.rpow_natCast]

theorem amplitudeI16_of_small (db : ℝ) (h : toLinear db * 32767 < 1) :
    amplitudeI16 db = 1 := by
  unfold amplitudeI16
  rw [if_pos h, show (1 : ℝ) + 1 / 2 = 3 / 2 by norm_num, Int.floor_eq_iff]
  constructor <;> push_cast <;> norm_num

-- Claim theorems for the tone generator and amplitude mapper

/-- C2 counterexample: at phase pi/6 with amplitude 1 the code writes
trunc(sin(pi/6) * 1) = trunc(1/2) = 0, while round(sin(pi/6) * 1) = 1:
the sample is not the rounded value claimed. -/
theorem fill_sine_round_counterexample :
    (fill_sine_i16 1 1 (Real.pi / 6) 0 1).1 = [0] ∧
    round (Real.sin (Real.pi / 6) * ((1 : ℤ) : ℝ)) = 1 ∧ (0 : ℤ) ≠ 1 := by
  refine ⟨?_, ?_, by decide⟩
  · simp [fill_sine_i16, c_trunc, Real.sin_pi_div_six]
    norm_num
  · rw [Real.sin_pi_div_six]
    norm_num [round_eq]

/-- C2 (corrected): for every call of fill_sine_i16, the samples are, in
frame order, the truncation toward zero (the C int16_t cast, not a
rounding) of sin(phase_i) * amp, written once per frame for mono and
duplicated into both channel slots for stereo, where phase_i is the
accumulator advanced by the phase increment and wrapped by subtracting
2 pi whenever it reaches 2 pi, once after each earlier frame; the final
accumulator value is the phase after all frames. -/
theorem fill_sine_i16_characterization (frames channels : ℕ)
    (phase step : ℝ) (amp : ℤ) :
    (fill_sine_i16 frames channels phase step amp).2 =
      phaseAt phase step frames ∧
    (fill_sine_i16 frames channels phase step amp).1 =
      (List.range frames).flatMap (fun i =>
        if channels = 1 then
          [c_trunc (Real.sin (phaseAt phase step i) * (amp : ℝ))]
        else
          [c_trunc (Real.sin (phaseAt phase step i) * (amp : ℝ)),
           c_trunc (Real.sin (phaseAt phase step i) * (amp : ℝ))]) :=
  ⟨fill_sine_i16_snd frames channels phase step amp,
   fill_sine_i16_fst frames channels phase step amp⟩

/-- C3 (confirmed): over any sequence of buffer fills of one session
(the priming fills of open_audio followed by any sequence of refills,
in either sample domain), the start phase of each generated buffer
equals the end phase of the previously generated buffer: the tail of
the start-phase list is the end-phase list without its last element.
The single accumulator is threaded through every fill and never reset. -/
theorem phase_continuity (usingFloat : Bool) (channels : ℕ) (step : ℝ)
    (ampI : ℤ) (ampF : ℝ) (p0 : ℝ) (fills : List ℕ) :
    ((sessionTrace usingFloat channels step ampI ampF p0 fills).map
      Prod.fst).tail =
    ((sessionTrace usingFloat channels step ampI ampF p0 fills).map
      Prod.snd).dropLast := by
  rw [sessionTrace_fst_eq]
  exact tail_dropLast_cons p0 _

/-- C5 counterexample: at level -20 dBFS the clamped scale is
32767/10 = 3276.7, but the amplitude the code uses is its half-up
rounding 3277, not the clamped value itself. -/
theorem amplitude_round_counterexample :
    amplitudeI16 (-20) = 3277 ∧ claimAmplitudeI16 (-20) = 32767 / 10 ∧
      ((3277 : ℝ) ≠ 32767 / 10) := by
  have hl : toLinear (-20) = ((10 : ℝ) ^ (1 : ℕ))⁻¹ :=
    toLinear_eval 1 (-20) (by norm_num)
  have hl2 : toLinear (-20) * 32767 = 32767 / 10 := by
    rw [hl]; norm_num
  refine ⟨?_, ?_, by norm_num⟩
  · unfold amplitudeI16
    rw [hl2, if_neg (by norm_num), if_neg (by norm_num),
      show (32767 : ℝ) / 10 + 1 / 2 = 16386 / 5 by norm_num, Int.floor_eq_iff]
    constructor <;> push_cast <;> norm_num
  · unfold claimAmplitudeI16
    rw [hl2, min_eq_left (by norm_num), max_eq_right (by norm_num)]

/-- C5 (corrected): the generation amplitude comes from
linear = 10^(db/20); the float32 amplitude is the unclamped linear
value, while the int16 amplitude is the half-up rounding
floor(clamp(linear * 32767, 1, 32767) + 1/2) of the clamped scale (not
the clamped real value itself), and it always lies in [1, 32767]. -/
theorem amplitude_mapping (db : ℝ) :
    amplitudeF32 db = (10 : ℝ) ^ (db / 20) ∧
    amplitudeI16 db = ⌊max 1 (min ((10 : ℝ) ^ (db / 20) * 32767) 32767) + 1 / 2⌋ ∧
    1 ≤ amplitudeI16 db ∧ amplitudeI16 db ≤ 32767 := by
  refine ⟨rfl, ?_, (amplitudeI16_bounds db).1, (amplitudeI16_bounds db).2⟩
  simpa [claimAmplitudeI16, toLinear] using amplitudeI16_eq db

/-- C6 counterexample: the integer-domain amplitude is not strictly
increasing on [-150, -10]: levels -140 and -120 both clamp to an
amplitude of exactly 1. -/
theorem amplitude_strict_counterexample :
    (-150 : ℝ) ≤ -140 ∧ ((-140 : ℝ) < -120) ∧ ((-120 : ℝ) ≤ -10) ∧
    amplitudeI16 (-140) = 1 ∧ amplitudeI16 (-120) = 1 := by
  have h140 : toLinear (-140) = ((10 : ℝ) ^ (7 : ℕ))⁻¹ :=
    toLinear_eval 7 (-140) (by norm_num)
  have h120 : toLinear (-120) = ((10 : ℝ) ^ (6 : ℕ))⁻¹ :=
    toLinear_eval 6 (-120) (by norm_num)
  refine ⟨by norm_num, by norm_num, by norm_num, ?_, ?_⟩
  · apply amplitudeI16_of_small
    rw [h140]; norm_num
  · apply amplitudeI16_of_small
    rw [h120]; norm_num

/-- C6 (corrected): on [-150, -10] the float-domain amplitude 10^(db/20)
is strictly increasing in the level, while the integer-domain amplitude
is only monotone non-decreasing (the clamp floors it at 1 for all
sufficiently low levels) and always lies in [1, 32767]. -/
theorem amplitude_monotone (a b : ℝ) (_h1 : -150 ≤ a) (h2 : a < b)
    (_h3 : b ≤ -10) :
    amplitudeF32 a < amplitudeF32 b ∧ amplitudeI16 a ≤ amplitudeI16 b ∧
    1 ≤ amplitudeI16 a ∧ amplitudeI16 a ≤ 32767 ∧
    1 ≤ amplitudeI16 b ∧ amplitudeI16 b ≤ 32767 :=
  ⟨toLinear_strictMono h2, amplitudeI16_mono (le_of_lt h2),
   (amplitudeI16_bounds a).1, (amplitudeI16_bounds a).2,
   (amplitudeI16_bounds b).1, (amplitudeI16_bounds b).2⟩

/-- Witness for amplitude_monotone at the pair (-20, -10). -/
theorem amplitude_monotone_witness :
    amplitudeF32 (-20) < amplitudeF32 (-10) ∧
    amplitudeI16 (-20) ≤ amplitudeI16 (-10) ∧
    1 ≤ amplitudeI16 (-20) ∧ amplitudeI16 (-20) ≤ 32767 ∧
    1 ≤ amplitudeI16 (-10) ∧ amplitudeI16 (-10) ≤ 32767 :=
  amplitude_monotone (-20) (-10) (by norm_num) (by norm_num) (by norm_num)

-- parse_options lemmas

theorem clamp_double_fin_range (v : CDouble) (lo hi : ℚ) (h : lo ≤ hi) :
    clamp_double v (CDouble.fin lo) (CDouble.fin hi) = CDouble.nan ∨
      cdInRange (clamp_double v (CDouble.fin lo) (CDouble.fin hi)) lo hi = true := by
  cases v with
  | nan => left; simp [clamp_double, cdLt]
  | pinf => right; simp [clamp_double, cdLt, cdInRange, h]
  | ninf => right; simp [clamp_double, cdLt, cdInRange, h]
  | fin q =>
    right
    by_cases h1 : q < lo
    · simp [clamp_double, cdLt, cdInRange, h1, h]
    · by_cases h2 : hi < q
      · simp [clamp_double, cdLt, cdInRange, h1, h2, h]
      · simp [clamp_double, cdLt, cdInRange, h1, h2, le_of_not_lt h1,
          le_of_not_lt h2]

theorem clamp_int_range (v lo hi : ℤ) (h : lo ≤ hi) :
    lo ≤ clamp_int v lo hi ∧ clamp_int v lo hi ≤ hi := by
  unfold clamp_int
  split_ifs with h1 h2 <;> omega

theorem clampOptions_invariants (o : Options) :
    ((clampOptions o).freq = CDouble.nan ∨
      cdInRange (clampOptions o).freq (1 / 10) 2000 = true) ∧
    ((clampOptions o).db = CDouble.nan ∨
      cdInRange (clampOptions o).db (-150) (-10) = true) ∧
    8000 ≤ (clampOptions o).rate ∧ (clampOptions o).rate ≤ 192000 ∧
    ((clampOptions o).channels = 1 ∨ (clampOptions o).channels = 2) ∧
    128 ≤ (clampOptions o).bufferFrames ∧ (clampOptions o).bufferFrames ≤ 8192 ∧
    2 ≤ (clampOptions o).numBuffers ∧ (clampOptions o).numBuffers ≤ 32 ∧
    ((clampOptions o).chance = 0 ∨
      (1 ≤ (clampOptions o).chance ∧ (clampOptions o).chance ≤ 100)) := by
  unfold clampOptions
  refine ⟨clamp_double_fin_range o.freq (1 / 10) 2000 (by norm_num),
    clamp_double_fin_range o.db (-150) (-10) (by norm_num),
    ?_, ?_, ?_, ?_, ?_, ?_, ?_, ?_⟩
  · simp only
    split_ifs <;> omega
  · simp only
    split_ifs <;> omega
  · simp only
    split_ifs with h
    · left; rfl
    · push_neg at h
      by_cases h1 : o.channels = 1
      · left; exact h1
      · right; exact h h1
  · exact (clamp_int_range o.bufferFrames 128 8192 (by norm_num)).1
  · exact (clamp_int_range o.bufferFrames 128 8192 (by norm_num)).2
  · exact (clamp_int_range o.numBuffers 2 32 (by norm_num)).1
  · exact (clamp_int_range o.numBuffers 2 32 (by norm_num)).2
  · simp only
    split_ifs with h
    · right; exact ⟨(clamp_int_range o.chance 1 100 (by norm_num)).1,
        (clamp_int_range o.chance 1 100 (by norm_num)).2⟩
    · left; push_neg at h; exact h

-- Claim theorems for parse_options

/-- C10 counterexample: the command line --freq nan parses to a NaN
frequency, and clamp_double passes NaN through unchanged (both IEEE
comparisons are false), so the frequency invariant [0.1, 2000] does not
hold for every command line. -/
theorem parse_nan_counterexample :
    (parse_options ["--freq", "nan"]).freq = CDouble.nan ∧
    cdInRange (parse_options ["--freq", "nan"]).freq (1 / 10) 2000 = false := by
  constructor <;> rfl

/-- C10 (corrected): for every command line, the integer-typed options
always satisfy their ranges after parse_options (rate in [8000, 192000],
channels in {1, 2}, frames-per-buffer in [128, 8192], buffer count in
[2, 32], chance 0 or in [1, 100]); freq is in [0.1, 2000] and db in
[-150, -10] unless the argument parsed to NaN, which survives both
clamps because every IEEE comparison involving NaN is false. -/
theorem parse_options_invariants (args : List String) :
    ((parse_options args).freq = CDouble.nan ∨
      cdInRange (parse_options args).freq (1 / 10) 2000 = true) ∧
    ((parse_options args).db = CDouble.nan ∨
      cdInRange (parse_options args).db (-150) (-10) = true) ∧
    8000 ≤ (parse_options args).rate ∧ (parse_options args).rate ≤ 192000 ∧
    ((parse_options args).channels = 1 ∨ (parse_options args).channels = 2) ∧
    128 ≤ (parse_options args).bufferFrames ∧
    (parse_options args).bufferFrames ≤ 8192 ∧
    2 ≤ (parse_options args).numBuffers ∧ (parse_options args).numBuffers ≤ 32 ∧
    ((parse_options args).chance = 0 ∨
      (1 ≤ (parse_options args).chance ∧ (parse_options args).chance ≤ 100)) :=
  clampOptions_invariants (parseArgs defaultOptions args)
